import Mathlib

/-!
# numato.c : relay controller for the Numato one-channel USB relay module

A shallow embedding of `src/numato.c`.  The program parses its command line,
then talks to a serial device through `open`, `write`, `close`, `usleep` and
`sleep`.  The embedding threads an explicit state through the C functions: the
state records, in chronological order, every system call and every line of
output the program makes.  The results of `open` and `write` are supplied by a
`World`, so that every statement below quantifies over every possible
behaviour of the device.

C strings are modelled as Lean strings: the characters before the terminating
NUL.  `strcmp (a, b) == 0` is therefore equality of the two strings, and
`s[i]` at the position of the terminator reads as the NUL character.

`write_data` and `EbanxReset` (lines 42-100) are not embedded: their only call
site, at the top of `main`, is commented out.
-/

namespace Numato

/-! ## Constants (numato.c lines 32-34) -/

/-- The wake byte sequence, `static const char wakeUp[]`. -/
def wakeUp : String := "\r"

/-- The activate payload, `static const char openIt[]`. -/
def openIt : String := "relay on 0\r"

/-- The deactivate payload, `static const char closeIt[]`. -/
def closeIt : String := "relay off 0\r"

/-! ## Observable events and the environment -/

/-- One observable action of the program. -/
inductive Event where
  /-- The call `open (path, O_RDWR)` and the value it returned. -/
  | sysOpen (path : String) (ret : Int)
  /-- The call `write (fd, buf, strlen (buf))` and the value it returned. -/
  | sysWrite (fd : Int) (buf : String) (ret : Int)
  /-- The call `close (fd)`. -/
  | sysClose (fd : Int)
  /-- The call `usleep (us)`. -/
  | usleep (us : Nat)
  /-- The call `sleep (sec)`. -/
  | sleep (sec : Nat)
  /-- Text printed on standard output. -/
  | stdout (text : String)
  /-- Text printed on standard error. -/
  | stderr (text : String)
  deriving DecidableEq, Repr

/-- The behaviour of the operating system and of the device: what the `k`-th
call of `open` and the `k`-th call of `write` return (calls are counted from
zero), and the text of `strerror (errno)` after the `k`-th call of `open`. -/
structure World where
  openRet : Nat → String → Int
  openErr : Nat → String → String
  writeRet : Nat → Int → String → Int

/-- The state threaded through the program: the events so far, oldest first,
and the number of `open` and `write` calls made. -/
structure St where
  trace : List Event
  opens : Nat
  writes : Nat

/-- The state at program start. -/
def St.init : St := ⟨[], 0, 0⟩

/-- Appends one event to the trace. -/
def emit (e : Event) (s : St) : St :=
  { s with trace := s.trace ++ [e] }

/-- The call `open (path, O_RDWR)`: the world decides the result. -/
def c_open (w : World) (path : String) (s : St) : Int × St :=
  let r := w.openRet s.opens path
  (r, { trace := s.trace ++ [Event.sysOpen path r], opens := s.opens + 1, writes := s.writes })

/-- The call `write (fd, buf, strlen (buf))`: the world decides the result. -/
def c_write (w : World) (fd : Int) (buf : String) (s : St) : Int × St :=
  let r := w.writeRet s.writes fd buf
  (r, { trace := s.trace ++ [Event.sysWrite fd buf r], opens := s.opens, writes := s.writes + 1 })

/-- The call `close (fd)`; its result is never inspected by the program. -/
def c_close (fd : Int) (s : St) : St :=
  emit (Event.sysClose fd) s

/-- The C library function `tolower` in the "C" locale (the program never
calls `setlocale`): upper-case ASCII letters are mapped to lower case, every
other character is returned unchanged. -/
def tolower (c : Char) : Char :=
  if 'A'.toNat ≤ c.toNat ∧ c.toNat ≤ 'Z'.toNat then Char.ofNat (c.toNat + 32) else c

/-- The character `s[i]` of a C string; the position just after the last
character holds the terminating NUL. -/
def charAt (s : String) (i : Nat) : Char :=
  s.data.getD i (Char.ofNat 0)

/-! ## `usage` (numato.c lines 102-108) -/

/-- The function `usage (progname)`: four lines on standard error.  `argv[0]`
is a null pointer when `argc` is zero; glibc prints `(null)` for it. -/
def usage (progname : Option String) (s : St) : St :=
  let s := emit (Event.stderr ("Usage\n" ++ progname.getD "(null)" ++ " -d device -c command\n")) s
  let s := emit (Event.stderr "Where:\n") s
  let s := emit (Event.stderr "\ttype device name, Ex.: /dev/ttyACM0\n") s
  emit (Event.stderr "\ttype command, Ex.: \"pulse\" or \"on\" and \"off\"\n") s

/-! ## `wakeup`, `activate`, `deactivate` (numato.c lines 110-170) -/

/-- The function `int wakeup (char *device)`, lines 110-128. -/
def wakeup (w : World) (device : String) (s : St) : Int × St :=
  let k := s.opens
  let (fd, s) := c_open w device s
  if fd < 0 then
    (0, emit (Event.stdout ("Error opening device: " ++ device ++ " - "
              ++ w.openErr k device ++ "\n")) s)
  else
    let (n, s) := c_write w fd wakeUp s
    if n = 0 then
      let s := c_close fd s
      (0, emit (Event.stdout "Error: Unable to write to the specified device\n") s)
    else
      (1, c_close fd s)

/-- The function `int activate (char *device)`, lines 130-149. -/
def activate (w : World) (device : String) (s : St) : Int × St :=
  let k := s.opens
  let (fd, s) := c_open w device s
  if fd < 0 then
    (0, emit (Event.stdout ("Error opening device: " ++ device ++ " - "
              ++ w.openErr k device ++ "\n")) s)
  else
    let (n, s) := c_write w fd openIt s
    if n = 0 then
      let s := c_close fd s
      (0, emit (Event.stdout "Error: Unable to write to the specified device\n") s)
    else
      (1, c_close fd s)

/-- The function `int deactivate (char *device)`, lines 151-170. -/
def deactivate (w : World) (device : String) (s : St) : Int × St :=
  let k := s.opens
  let (fd, s) := c_open w device s
  if fd < 0 then
    (0, emit (Event.stdout ("Error opening device: " ++ device ++ " - "
              ++ w.openErr k device ++ "\n")) s)
  else
    let (n, s) := c_write w fd closeIt s
    if n = 0 then
      let s := c_close fd s
      (0, emit (Event.stdout "Error: Unable to write to the specified device\n") s)
    else
      (1, c_close fd s)

/-! ## `main` (numato.c lines 172-266) -/

/-- How the argument loop ended: with `exit (code)` from inside the loop, or
by running off the end of `argv` with the two pointers `device` and `command`
(`none` is the null pointer). -/
inductive Scan where
  | exited (code : Int) (s : St)
  | done (device command : Option String) (s : St)

/-- The loop `for (i = 1; i < argc; i++)` of lines 184-205, started with the
loop variable at `i`.  `argc` is the length of `argv`.  `argv[++i]` is read at
an index that is at most `argc`, and `argv[argc]` is the null pointer the C
standard guarantees, which is what `argv[i + 1]?` yields there.  After a
`d` or `c` flag the loop variable has been incremented twice. -/
def parseLoop (argv : List String) (i : Nat) (device command : Option String) (s : St) : Scan :=
  if h : i < argv.length then
    let a := argv[i]
    if charAt a 0 = '-' ∨ charAt a 0 = '/' then
      if tolower (charAt a 1) = 'd' then
        parseLoop argv (i + 2) (argv[i + 1]?) command s
      else if tolower (charAt a 1) = 'c' then
        parseLoop argv (i + 2) device (argv[i + 1]?) s
      else
        parseLoop argv (i + 1) device command (usage argv.head? s)
    else
      Scan.exited 1 s
  else
    Scan.done device command s
termination_by argv.length - i
decreasing_by all_goals omega

/-- Lines 217-265 of `main`: wake the interface, then dispatch on the command
string.  The result is the value `main` returns. -/
def relayControl (w : World) (progname : Option String) (device command : String)
    (s : St) : Int × St :=
  let s := emit (Event.stdout "let's wake up interface\n") s
  let (r, s) := wakeup w device s
  if r = 0 then (1, s)
  else
    let s := emit (Event.usleep 50) s
    if command = "on" then
      let s := emit (Event.stdout "let's activate relay\n") s
      let (r, s) := activate w device s
      if r = 0 then (1, s) else (0, s)
    else if command = "off" then
      let s := emit (Event.stdout "let's deactivate relay\n") s
      let (r, s) := deactivate w device s
      if r = 0 then (1, s) else (0, s)
    else if command = "pulse" then
      let s := emit (Event.stdout "let's activate relay\n") s
      let (r, s) := activate w device s
      if r = 0 then (1, s)
      else
        let s := emit (Event.sleep 1) s
        let s := emit (Event.stdout "let's deactivate relay\n") s
        let (r, s) := deactivate w device s
        if r = 0 then (1, s) else (0, s)
    else
      let s := emit (Event.stdout ("Error: invalid command argument \"" ++ command ++ "\"\n")) s
      (1, usage progname s)

/-- The function `int main (int argc, char **argv)`: the exit status of the
process (whether by `return` or by `exit`) and the final state. -/
def main (w : World) (argv : List String) : Int × St :=
  let scan := if 1 < argv.length then parseLoop argv 1 none none St.init
              else Scan.done none none St.init
  match scan with
  | Scan.exited code s => (code, s)
  | Scan.done device command s =>
    let s := emit (Event.stdout "USB Relay Module Controller - USBPOWRL002\n") s
    match device, command with
    | some device, some command => relayControl w argv.head? device command s
    | _, _ => (1, usage argv.head? s)

/-! ## Observations on a run -/

/-- Whether an event is diagnostic output rather than a system call on the
device or a sleep. -/
def Event.isOutput : Event → Bool
  | Event.stdout _ => true
  | Event.stderr _ => true
  | _ => false

/-- The device and sleep events of a trace, in order: everything except the
text printed on standard output and standard error. -/
def deviceEvents (t : List Event) : List Event :=
  t.filter (fun e => !e.isOutput)

/-- What reaches the wire or the clock: a payload handed to `write`, or a
pause. -/
inductive Wire where
  | bytes (buf : String)
  | usleep (us : Nat)
  | sleep (sec : Nat)
  deriving DecidableEq, Repr

/-- The payload or pause of an event, when it has one. -/
def wireOf : Event → Option Wire
  | Event.sysWrite _ buf _ => some (Wire.bytes buf)
  | Event.usleep us => some (Wire.usleep us)
  | Event.sleep sec => some (Wire.sleep sec)
  | _ => none

/-- The payloads written and the pauses taken, in order. -/
def wire (t : List Event) : List Wire :=
  t.filterMap wireOf

/-- The three system calls of a device session whose `open` (the `o`-th) and
`write` (the `n`-th) both succeed: open, write the payload, close. -/
def session (w : World) (device : String) (o n : Nat) (payload : String) : List Event :=
  [Event.sysOpen device (w.openRet o device),
   Event.sysWrite (w.openRet o device) payload
     (w.writeRet n (w.openRet o device) payload),
   Event.sysClose (w.openRet o device)]

/-! ### Closed forms

What `wakeup`, `activate` and `deactivate` return and record, written out by
cases on the results of the `o`-th `open` and the `n`-th `write`; and the same
for lines 217-265 of `main`.  They are proved equal to the functions above in
`wakeup_eq`, `activate_eq`, `deactivate_eq` and `relayControl_eq`. -/

/-- The value returned by a function that opens the device, writes `payload`
and closes. -/
def sessionRet (w : World) (payload device : String) (o n : Nat) : Int :=
  if w.openRet o device < 0 then 0
  else if w.writeRet n (w.openRet o device) payload = 0 then 0
  else 1

/-- The events recorded by a function that opens the device, writes `payload`
and closes. -/
def sessionEvents (w : World) (payload device : String) (o n : Nat) : List Event :=
  if w.openRet o device < 0 then
    [Event.sysOpen device (w.openRet o device),
     Event.stdout ("Error opening device: " ++ device ++ " - " ++ w.openErr o device ++ "\n")]
  else if w.writeRet n (w.openRet o device) payload = 0 then
    [Event.sysOpen device (w.openRet o device),
     Event.sysWrite (w.openRet o device) payload (w.writeRet n (w.openRet o device) payload),
     Event.sysClose (w.openRet o device),
     Event.stdout "Error: Unable to write to the specified device\n"]
  else
    session w device o n payload

/-- The number of `write` calls made by such a function. -/
def sessionWrites (w : World) (device : String) (o : Nat) : Nat :=
  if w.openRet o device < 0 then 0 else 1

/-- The value returned and the events recorded by lines 217-265 of `main`,
started after `o` calls of `open` and `n` calls of `write`. -/
def relayEvents (w : World) (progname : Option String) (device command : String)
    (o n : Nat) : Int × List Event :=
  let wake := Event.stdout "let's wake up interface\n" :: sessionEvents w wakeUp device o n
  let act := Event.stdout "let's activate relay\n" :: sessionEvents w openIt device (o + 1) (n + 1)
  if sessionRet w wakeUp device o n = 0 then (1, wake)
  else if command = "on" then
    (if sessionRet w openIt device (o + 1) (n + 1) = 0 then 1 else 0,
     wake ++ Event.usleep 50 :: act)
  else if command = "off" then
    (if sessionRet w closeIt device (o + 1) (n + 1) = 0 then 1 else 0,
     wake ++ Event.usleep 50 :: Event.stdout "let's deactivate relay\n"
       :: sessionEvents w closeIt device (o + 1) (n + 1))
  else if command = "pulse" then
    if sessionRet w openIt device (o + 1) (n + 1) = 0 then
      (1, wake ++ Event.usleep 50 :: act)
    else
      (if sessionRet w closeIt device (o + 2) (n + 2) = 0 then 1 else 0,
       wake ++ Event.usleep 50 :: act ++ Event.sleep 1
         :: Event.stdout "let's deactivate relay\n"
         :: sessionEvents w closeIt device (o + 2) (n + 2))
  else
    (1, wake ++ Event.usleep 50
      :: Event.stdout ("Error: invalid command argument \"" ++ command ++ "\"\n")
      :: (usage progname St.init).trace)

/-- The state of the single device handle while a trace is replayed. -/
inductive Handle where
  /-- No handle is open. -/
  | closed
  /-- The handle `fd` is open and nothing has been written on it. -/
  | fresh (fd : Int)
  /-- The handle `fd` is open and one write has been made on it. -/
  | used (fd : Int)
  deriving DecidableEq, Repr

/-- Replays a trace against the handle discipline, starting from handle state
`h`: an `open` happens only while no handle is open, and a successful one
(result not negative) opens a handle; the next handle event is then a `write`
on that handle, the one after it a `close` of that handle; the trace ends with
no handle open.  Sleeps and printed text are allowed anywhere. -/
def disciplined : Handle → List Event → Bool
  | h, [] => decide (h = Handle.closed)
  | Handle.closed, Event.sysOpen _ r :: t =>
      if r < 0 then disciplined Handle.closed t else disciplined (Handle.fresh r) t
  | Handle.fresh fd, Event.sysWrite fd' _ _ :: t =>
      decide (fd' = fd) && disciplined (Handle.used fd) t
  | Handle.used fd, Event.sysClose fd' :: t =>
      decide (fd' = fd) && disciplined Handle.closed t
  | h, Event.usleep _ :: t => disciplined h t
  | h, Event.sleep _ :: t => disciplined h t
  | h, Event.stdout _ :: t => disciplined h t
  | h, Event.stderr _ :: t => disciplined h t
  | _, _ :: _ => false

/-- An argument that starts with one of the two flag prefixes, the test of
line 186. -/
def isFlagArg (a : String) : Prop :=
  charAt a 0 = '-' ∨ charAt a 0 = '/'

instance (a : String) : Decidable (isFlagArg a) := by
  unfold isFlagArg; infer_instance

/-- The values the loop variable of lines 184-205 takes at each execution of
the loop body when the loop is started at `i`: the indices of the arguments
that are scanned, as opposed to consumed as the value of a flag. -/
def scannedIndices (argv : List String) (i : Nat) : List Nat :=
  if h : i < argv.length then
    let a := argv[i]
    if charAt a 0 = '-' ∨ charAt a 0 = '/' then
      if tolower (charAt a 1) = 'd' ∨ tolower (charAt a 1) = 'c' then
        i :: scannedIndices argv (i + 2)
      else
        i :: scannedIndices argv (i + 1)
    else
      [i]
  else
    []
termination_by argv.length - i
decreasing_by all_goals omega

/-- What the argument loop decided, without the state: the exit status, or
the two pointers `device` and `command`. -/
def Scan.outcome : Scan → Int ⊕ (Option String × Option String)
  | Scan.exited code _ => Sum.inl code
  | Scan.done device command _ => Sum.inr (device, command)

/-- The exit status and the device events that follow from an outcome of the
argument loop. -/
def behaviour (w : World) : Int ⊕ (Option String × Option String) → Int × List Event
  | Sum.inl code => (code, [])
  | Sum.inr (some device, some command) =>
      ((relayControl w none device command St.init).1,
       deviceEvents (relayControl w none device command St.init).2.trace)
  | Sum.inr _ => (1, [])

/-- The scan reaches a positional argument: an argument that is scanned and
does not start with a flag prefix. -/
def positionalReached (argv : List String) : Prop :=
  ∃ k a, k ∈ scannedIndices argv 1 ∧ argv[k]? = some a ∧ ¬ isFlagArg a

/-- The scan runs to the end of the argument list and leaves the device or
the command (or both) unset. -/
def unsetAfterScan (argv : List String) : Prop :=
  ∃ d c s, parseLoop argv 1 none none St.init = Scan.done d c s ∧ (d = none ∨ c = none)

/-- A string with every character lower-cased. -/
def lowerCase (s : String) : String :=
  ⟨s.data.map tolower⟩

/-- Replays a trace against the zero-write rule for a run that ended with exit
status `code`: a `write` that returned zero is followed by the `close` of its
handle and by nothing else, and the status is then 1. -/
def zeroWriteOK (code : Int) : List Event → Bool
  | [] => true
  | Event.sysWrite fd _ r :: t =>
      if r = 0 then decide (code = 1) && decide (t = [Event.sysClose fd]) else zeroWriteOK code t
  | _ :: t => zeroWriteOK code t

/-! ## Sample environments -/

/-- A device that is present and accepts every payload in full: `open`
returns the descriptor 3 and `write` returns the length of the payload. -/
def World.ready : World :=
  ⟨fun _ _ => 3, fun _ _ => "", fun _ _ buf => (buf.length : Int)⟩

/-- A device node that cannot be opened. -/
def World.absent : World :=
  ⟨fun _ _ => -1, fun _ _ => "No such file or directory", fun _ _ _ => -1⟩

/-- A device that opens but accepts no byte: every `write` returns zero. -/
def World.stalled : World :=
  ⟨fun _ _ => 3, fun _ _ => "", fun _ _ _ => 0⟩

/-- A device that opens but on which every `write` fails with -1. -/
def World.broken : World :=
  ⟨fun _ _ => 3, fun _ _ => "", fun _ _ _ => -1⟩

/-! ## The argument loop -/

/-- `usage` only appends printed text to the trace. -/
theorem usage_trace (p : Option String) (s : St) :
    ∃ outs, (∀ e ∈ outs, Event.isOutput e = true) ∧
      usage p s = ⟨s.trace ++ outs, s.opens, s.writes⟩ := by
  refine ⟨[Event.stderr ("Usage\n" ++ p.getD "(null)" ++ " -d device -c command\n"),
    Event.stderr "Where:\n", Event.stderr "\ttype device name, Ex.: /dev/ttyACM0\n",
    Event.stderr "\ttype command, Ex.: \"pulse\" or \"on\" and \"off\"\n"], ?_, ?_⟩
  · intro e he
    simp at he
    rcases he with h | h | h | h <;> subst h <;> rfl
  · simp [usage, emit]

/-- The argument loop makes no system call: it only appends printed text to the
trace, and it leaves either through `exit (1)` or by running off the end. -/
theorem parseLoop_frame (argv : List String) :
    ∀ (n i : Nat) (d c : Option String) (s : St), argv.length - i = n →
      ∃ outs, (∀ e ∈ outs, Event.isOutput e = true) ∧
        (parseLoop argv i d c s = Scan.exited 1 ⟨s.trace ++ outs, s.opens, s.writes⟩ ∨
         ∃ d' c', parseLoop argv i d c s = Scan.done d' c' ⟨s.trace ++ outs, s.opens, s.writes⟩) := by
  intro n
  induction n using Nat.strong_induction_on with
  | _ n ih =>
    intro i d c s hn
    rw [parseLoop]
    by_cases h : i < argv.length
    · simp only [h, dite_true]
      by_cases hf : charAt argv[i] 0 = '-' ∨ charAt argv[i] 0 = '/'
      · simp only [hf, if_true]
        by_cases hd : tolower (charAt argv[i] 1) = 'd'
        · simp only [hd, if_true]
          exact ih (argv.length - (i + 2)) (by omega) (i + 2) _ _ s rfl
        · simp only [hd, if_false]
          by_cases hc : tolower (charAt argv[i] 1) = 'c'
          · simp only [hc, if_true]
            exact ih (argv.length - (i + 2)) (by omega) (i + 2) _ _ s rfl
          · simp only [hc, if_false]
            obtain ⟨o1, ho1, hu⟩ := usage_trace argv.head? s
            obtain ⟨o2, ho2, hr⟩ := ih (argv.length - (i + 1)) (by omega) (i + 1) d c
              (usage argv.head? s) rfl
            refine ⟨o1 ++ o2, ?_, ?_⟩
            · intro e he
              rcases List.mem_append.mp he with h1 | h1
              · exact ho1 e h1
              · exact ho2 e h1
            · rw [hu]
              rw [hu] at hr
              simpa [List.append_assoc] using hr
      · simp only [hf, if_false]
        exact ⟨[], by simp, Or.inl (by simp)⟩
    · simp only [h, dite_false]
      exact ⟨[], by simp, Or.inr ⟨d, c, by simp⟩⟩

/-! ## Closed forms of the device functions -/

theorem deviceEvents_append (a b : List Event) :
    deviceEvents (a ++ b) = deviceEvents a ++ deviceEvents b := by
  simp [deviceEvents]

theorem deviceEvents_of_output (outs : List Event) (h : ∀ e ∈ outs, Event.isOutput e = true) :
    deviceEvents outs = [] := by
  simp only [deviceEvents, List.filter_eq_nil_iff]
  intro e he
  simp [h e he]

/-- The closed form of `wakeup`. -/
theorem wakeup_eq (w : World) (device : String) (t : List Event) (o n : Nat) :
    wakeup w device ⟨t, o, n⟩ = (sessionRet w wakeUp device o n,
      ⟨t ++ sessionEvents w wakeUp device o n, o + 1, n + sessionWrites w device o⟩) := by
  simp only [wakeup, c_open, c_write, c_close, emit, sessionRet, sessionEvents, sessionWrites,
    session]
  split_ifs <;> simp

/-- The closed form of `activate`. -/
theorem activate_eq (w : World) (device : String) (t : List Event) (o n : Nat) :
    activate w device ⟨t, o, n⟩ = (sessionRet w openIt device o n,
      ⟨t ++ sessionEvents w openIt device o n, o + 1, n + sessionWrites w device o⟩) := by
  simp only [activate, c_open, c_write, c_close, emit, sessionRet, sessionEvents, sessionWrites,
    session]
  split_ifs <;> simp

/-- The closed form of `deactivate`. -/
theorem deactivate_eq (w : World) (device : String) (t : List Event) (o n : Nat) :
    deactivate w device ⟨t, o, n⟩ = (sessionRet w closeIt device o n,
      ⟨t ++ sessionEvents w closeIt device o n, o + 1, n + sessionWrites w device o⟩) := by
  simp only [deactivate, c_open, c_write, c_close, emit, sessionRet, sessionEvents, sessionWrites,
    session]
  split_ifs <;> simp

/-- A device function that returned success made one `write`. -/
theorem sessionWrites_of_ret (w : World) (payload device : String) (o n : Nat)
    (h : ¬ sessionRet w payload device o n = 0) : sessionWrites w device o = 1 := by
  unfold sessionRet at h
  unfold sessionWrites
  split_ifs at h ⊢ <;> simp_all

/-- The text `usage` prints does not depend on the state it starts from. -/
theorem usage_eq (p : Option String) (s : St) :
    usage p s = ⟨s.trace ++ (usage p St.init).trace, s.opens, s.writes⟩ := by
  simp [usage, emit, St.init]

/-- The closed form of lines 217-265 of `main`: the value returned and the
events appended. -/
theorem relayControl_eq (w : World) (p : Option String) (d c : String)
    (t : List Event) (o n : Nat) :
    (relayControl w p d c ⟨t, o, n⟩).1 = (relayEvents w p d c o n).1 ∧
    (relayControl w p d c ⟨t, o, n⟩).2.trace = t ++ (relayEvents w p d c o n).2 := by
  simp only [relayControl, relayEvents, emit, wakeup_eq]
  by_cases h0 : sessionRet w wakeUp d o n = 0
  · simp [h0]
  · have hw0 := sessionWrites_of_ret w wakeUp d o n h0
    simp only [h0, hw0, if_false, activate_eq, deactivate_eq]
    by_cases c1 : c = "on"
    · simp only [c1, if_true]
      split_ifs <;> simp
    · simp only [c1, if_false]
      by_cases c2 : c = "off"
      · simp only [c2, if_true]
        split_ifs <;> simp
      · simp only [c2, if_false]
        by_cases c3 : c = "pulse"
        · simp only [c3, if_true]
          by_cases h1 : sessionRet w openIt d (o + 1) (n + 1) = 0
          · simp [h1]
          · have hw1 := sessionWrites_of_ret w openIt d (o + 1) (n + 1) h1
            simp only [h1, hw1, if_false]
            split_ifs <;> simp
        · simp only [c3, if_false]
          rw [usage_eq]
          simp

theorem deviceEvents_nil : deviceEvents [] = [] := rfl
theorem deviceEvents_stdout (x : String) (t : List Event) :
    deviceEvents (Event.stdout x :: t) = deviceEvents t := rfl
theorem deviceEvents_stderr (x : String) (t : List Event) :
    deviceEvents (Event.stderr x :: t) = deviceEvents t := rfl
theorem deviceEvents_sysOpen (p : String) (r : Int) (t : List Event) :
    deviceEvents (Event.sysOpen p r :: t) = Event.sysOpen p r :: deviceEvents t := rfl
theorem deviceEvents_sysWrite (fd : Int) (b : String) (r : Int) (t : List Event) :
    deviceEvents (Event.sysWrite fd b r :: t) = Event.sysWrite fd b r :: deviceEvents t := rfl
theorem deviceEvents_sysClose (fd : Int) (t : List Event) :
    deviceEvents (Event.sysClose fd :: t) = Event.sysClose fd :: deviceEvents t := rfl
theorem deviceEvents_usleep (n : Nat) (t : List Event) :
    deviceEvents (Event.usleep n :: t) = Event.usleep n :: deviceEvents t := rfl
theorem deviceEvents_sleep (n : Nat) (t : List Event) :
    deviceEvents (Event.sleep n :: t) = Event.sleep n :: deviceEvents t := rfl

theorem usage_output (p : Option String) : deviceEvents (usage p St.init).trace = [] := by
  simp [usage, emit, St.init, deviceEvents_stderr, deviceEvents_nil]

/-- The program name only shows in printed text. -/
theorem relayEvents_progname (w : World) (p p' : Option String) (d c : String) (o n : Nat) :
    (relayEvents w p d c o n).1 = (relayEvents w p' d c o n).1 ∧
    deviceEvents (relayEvents w p d c o n).2 = deviceEvents (relayEvents w p' d c o n).2 := by
  unfold relayEvents
  split_ifs <;>
    simp [deviceEvents_append, usage_output, deviceEvents_stdout, deviceEvents_usleep]

/-- With `argc` at most 1 the loop would not run anyway, so the guard of line
182 can be dropped. -/
theorem main_scan (argv : List String) :
    (if 1 < argv.length then parseLoop argv 1 none none St.init
      else Scan.done none none St.init) = parseLoop argv 1 none none St.init := by
  by_cases h : 1 < argv.length
  · simp [h]
  · rw [parseLoop]; simp [h]

/-- The exit status and the device events of `main` are a function of the
outcome of the argument loop. -/
theorem main_behaviour (w : World) (argv : List String) :
    ((main w argv).1, deviceEvents (main w argv).2.trace)
      = behaviour w (parseLoop argv 1 none none St.init).outcome := by
  unfold main
  rw [main_scan]
  obtain ⟨outs, houts, hr⟩ := parseLoop_frame argv _ 1 none none St.init rfl
  have h0 := deviceEvents_of_output outs houts
  rcases hr with hr | ⟨d, c, hr⟩
  · rw [hr]
    simp [Scan.outcome, behaviour, St.init, h0]
  · rw [hr]
    cases d with
    | none =>
      simp only [Scan.outcome, behaviour, St.init, emit, List.nil_append]
      rw [usage_eq]
      simp [deviceEvents_append, h0, deviceEvents_stdout, deviceEvents_nil, usage_output]
    | some dv =>
      cases c with
      | none =>
        simp only [Scan.outcome, behaviour, St.init, emit, List.nil_append]
        rw [usage_eq]
        simp [deviceEvents_append, h0, deviceEvents_stdout, deviceEvents_nil, usage_output]
      | some cm =>
        simp only [Scan.outcome, behaviour, St.init, emit, List.nil_append]
        obtain ⟨e1, e2⟩ := relayControl_eq w argv.head? dv cm
          (outs ++ [Event.stdout "USB Relay Module Controller - USBPOWRL002\n"]) 0 0
        obtain ⟨e3, e4⟩ := relayControl_eq w none dv cm [] 0 0
        obtain ⟨e5, e6⟩ := relayEvents_progname w argv.head? none dv cm 0 0
        rw [e1, e2, e3, e4, e5]
        simp [deviceEvents_append, h0, e6, deviceEvents_stdout, deviceEvents_nil]

/-! ## Handle discipline and zero-byte writes -/

/-- Printed text is irrelevant to the handle discipline. -/
theorem disciplined_deviceEvents (t : List Event) :
    ∀ h : Handle, disciplined h (deviceEvents t) = disciplined h t := by
  induction t with
  | nil => intro h; rfl
  | cons e t ih =>
    intro h
    cases e <;> cases h <;>
      simp only [deviceEvents_stdout, deviceEvents_stderr, deviceEvents_sysOpen,
        deviceEvents_sysWrite, deviceEvents_sysClose, deviceEvents_usleep, deviceEvents_sleep] <;>
      simp only [disciplined, ih]

/-- A disciplined trace can be followed by any other. -/
theorem disciplined_append (b : List Event) :
    ∀ (a : List Event) (h : Handle), disciplined h a = true →
      disciplined h (a ++ b) = disciplined Handle.closed b := by
  intro a
  induction a with
  | nil =>
    intro h hh
    cases h <;> simp_all [disciplined]
  | cons e a ih =>
    intro h hh
    cases e <;> cases h <;> simp only [disciplined, List.cons_append] at hh ⊢
    all_goals first
      | exact ih _ hh
      | exact Bool.noConfusion hh
      | skip
    · split_ifs at hh ⊢ <;> exact ih _ hh
    · simp only [Bool.and_eq_true, decide_eq_true_eq] at hh
      simp only [hh.1, decide_True, Bool.true_and]
      exact ih _ hh.2
    · simp only [Bool.and_eq_true, decide_eq_true_eq] at hh
      simp only [hh.1, decide_True, Bool.true_and]
      exact ih _ hh.2

theorem disciplined_stdout (h : Handle) (x : String) (t : List Event) :
    disciplined h (Event.stdout x :: t) = disciplined h t := by
  cases h <;> rfl

theorem disciplined_stderr (h : Handle) (x : String) (t : List Event) :
    disciplined h (Event.stderr x :: t) = disciplined h t := by
  cases h <;> rfl

theorem disciplined_usleep (h : Handle) (x : Nat) (t : List Event) :
    disciplined h (Event.usleep x :: t) = disciplined h t := by
  cases h <;> rfl

theorem disciplined_sleep (h : Handle) (x : Nat) (t : List Event) :
    disciplined h (Event.sleep x :: t) = disciplined h t := by
  cases h <;> rfl

/-- The events of one device function obey the handle discipline. -/
theorem sessionEvents_disciplined (w : World) (payload d : String) (o n : Nat) :
    disciplined Handle.closed (sessionEvents w payload d o n) = true := by
  unfold sessionEvents session
  split_ifs <;> simp_all [disciplined]

theorem usage_disciplined (p : Option String) :
    disciplined Handle.closed (usage p St.init).trace = true := by
  simp [usage, emit, St.init, disciplined]

/-- The events of lines 217-265 obey the handle discipline. -/
theorem relayEvents_disciplined (w : World) (p : Option String) (d c : String) (o n : Nat) :
    disciplined Handle.closed (relayEvents w p d c o n).2 = true := by
  have hs := sessionEvents_disciplined w
  have happ : ∀ (P : String) (o n : Nat) (b : List Event),
      disciplined Handle.closed (sessionEvents w P d o n ++ b) = disciplined Handle.closed b :=
    fun P o n b => disciplined_append b _ _ (hs P d o n)
  unfold relayEvents
  split_ifs <;>
    simp only [List.cons_append, List.append_assoc, disciplined_stdout, disciplined_usleep,
      disciplined_sleep, happ, hs, usage_disciplined]

theorem zeroWriteOK_sysOpen (code : Int) (p : String) (r : Int) (t : List Event) :
    zeroWriteOK code (Event.sysOpen p r :: t) = zeroWriteOK code t := rfl

theorem zeroWriteOK_usleep (code : Int) (x : Nat) (t : List Event) :
    zeroWriteOK code (Event.usleep x :: t) = zeroWriteOK code t := rfl

theorem zeroWriteOK_sleep (code : Int) (x : Nat) (t : List Event) :
    zeroWriteOK code (Event.sleep x :: t) = zeroWriteOK code t := rfl

theorem zeroWriteOK_nil (code : Int) : zeroWriteOK code [] = true := rfl

/-- A session that returned success holds no zero write. -/
theorem zeroWriteOK_session (w : World) (P d : String) (o n : Nat) (code : Int)
    (b : List Event) (h : ¬ sessionRet w P d o n = 0) :
    zeroWriteOK code (deviceEvents (sessionEvents w P d o n) ++ b) = zeroWriteOK code b := by
  unfold sessionRet at h
  unfold sessionEvents session
  split_ifs at h ⊢
  · exact absurd rfl h
  · exact absurd rfl h
  · rename_i h1 h2
    simp only [deviceEvents_sysOpen, deviceEvents_sysWrite, deviceEvents_sysClose,
      deviceEvents_nil, List.cons_append, List.nil_append]
    simp only [zeroWriteOK, h2, if_false]

/-- A session that returned failure ends right after its zero write, if any. -/
theorem zeroWriteOK_session_fail (w : World) (P d : String) (o n : Nat)
    (h : sessionRet w P d o n = 0) :
    zeroWriteOK 1 (deviceEvents (sessionEvents w P d o n)) = true := by
  unfold sessionRet at h
  unfold sessionEvents session
  split_ifs at h ⊢
  · simp only [deviceEvents_sysOpen, deviceEvents_stdout, deviceEvents_nil]
    rfl
  · rename_i h1 h2
    simp only [deviceEvents_sysOpen, deviceEvents_sysWrite, deviceEvents_sysClose,
      deviceEvents_stdout, deviceEvents_nil]
    simp [zeroWriteOK, h2]
  · exact absurd h (by decide)

theorem zeroWriteOK_session_last (w : World) (P d : String) (o n : Nat) :
    zeroWriteOK (if sessionRet w P d o n = 0 then 1 else 0)
      (deviceEvents (sessionEvents w P d o n)) = true := by
  by_cases h : sessionRet w P d o n = 0
  · simp only [h, if_true]
    exact zeroWriteOK_session_fail w P d o n h
  · have := zeroWriteOK_session w P d o n (if sessionRet w P d o n = 0 then 1 else 0) [] h
    simpa using this

/-- In lines 217-265 a zero write ends the run with status 1. -/
theorem relayEvents_zeroWrite (w : World) (p : Option String) (d c : String) (o n : Nat) :
    zeroWriteOK (relayEvents w p d c o n).1 (deviceEvents (relayEvents w p d c o n).2) = true := by
  unfold relayEvents
  by_cases h0 : sessionRet w wakeUp d o n = 0
  · simp only [h0, if_true, deviceEvents_stdout]
    exact zeroWriteOK_session_fail w wakeUp d o n h0
  · simp only [h0, if_false]
    by_cases c1 : c = "on"
    · simp only [c1, if_true, deviceEvents_append, deviceEvents_stdout, deviceEvents_usleep,
        List.cons_append, zeroWriteOK_session _ _ _ _ _ _ _ h0, zeroWriteOK_usleep]
      exact zeroWriteOK_session_last w openIt d (o + 1) (n + 1)
    · simp only [c1, if_false]
      by_cases c2 : c = "off"
      · simp only [c2, if_true, deviceEvents_append, deviceEvents_stdout, deviceEvents_usleep,
          List.cons_append, zeroWriteOK_session _ _ _ _ _ _ _ h0, zeroWriteOK_usleep]
        exact zeroWriteOK_session_last w closeIt d (o + 1) (n + 1)
      · simp only [c2, if_false]
        by_cases c3 : c = "pulse"
        · simp only [c3, if_true]
          by_cases h1 : sessionRet w openIt d (o + 1) (n + 1) = 0
          · simp only [h1, if_true, deviceEvents_append, deviceEvents_stdout,
              deviceEvents_usleep, List.cons_append, zeroWriteOK_session _ _ _ _ _ _ _ h0,
              zeroWriteOK_usleep]
            exact zeroWriteOK_session_fail w openIt d (o + 1) (n + 1) h1
          · simp only [h1, if_false, deviceEvents_append, deviceEvents_stdout,
              deviceEvents_usleep, deviceEvents_sleep, List.cons_append, List.append_assoc,
              zeroWriteOK_session _ _ _ _ _ _ _ h0, zeroWriteOK_session _ _ _ _ _ _ _ h1,
              zeroWriteOK_usleep, zeroWriteOK_sleep]
            exact zeroWriteOK_session_last w closeIt d (o + 2) (n + 2)
        · simp only [c3, if_false, deviceEvents_append, deviceEvents_stdout,
            deviceEvents_usleep, List.cons_append, zeroWriteOK_session _ _ _ _ _ _ _ h0,
            zeroWriteOK_usleep, usage_output, zeroWriteOK_nil]

/-- What the replay `zeroWriteOK` means for any zero write in a trace. -/
theorem zeroWriteOK_split (code : Int) (fd : Int) (buf : String) (post : List Event) :
    ∀ (pre l : List Event), zeroWriteOK code l = true →
      l = pre ++ Event.sysWrite fd buf 0 :: post → code = 1 ∧ post = [Event.sysClose fd] := by
  intro pre
  induction pre with
  | nil =>
    intro l hl heq
    subst heq
    simpa [zeroWriteOK] using hl
  | cons e pre ih =>
    intro l hl heq
    subst heq
    cases e with
    | sysWrite fd' buf' r =>
      by_cases hr : r = 0
      · simp only [List.cons_append, zeroWriteOK, hr, if_true, Bool.and_eq_true,
          decide_eq_true_eq] at hl
        obtain ⟨_, h2⟩ := hl
        have hlen := congrArg List.length h2
        simp at hlen
        have hpre : pre = [] := List.length_eq_zero.mp (by omega)
        subst hpre
        simp at h2
      · simp only [List.cons_append, zeroWriteOK, hr, if_false] at hl
        exact ih _ hl rfl
    | _ => exact ih _ (by simpa [zeroWriteOK] using hl) rfl

/-! ## Erasing an ignored flag -/

/-- A scanned index lies between the start of the loop and `argc`. -/
theorem scannedIndices_bounds (argv : List String) (k : Nat) :
    ∀ (n i : Nat), argv.length - i = n → k ∈ scannedIndices argv i → i ≤ k ∧ k < argv.length := by
  intro n
  induction n using Nat.strong_induction_on with
  | _ n ih =>
    intro i hn hk
    rw [scannedIndices] at hk
    by_cases h : i < argv.length
    · simp only [h, dite_true] at hk
      split_ifs at hk
      · rcases List.mem_cons.mp hk with h1 | h1
        · omega
        · have := ih (argv.length - (i + 2)) (by omega) (i + 2) rfl h1
          omega
      · rcases List.mem_cons.mp hk with h1 | h1
        · omega
        · have := ih (argv.length - (i + 1)) (by omega) (i + 1) rfl h1
          omega
      · simp at hk
        omega
    · simp [h] at hk

/-- Past the erased index, the loop on the shorter list is the loop on the
full list one index further. -/
theorem parseLoop_eraseIdx_after (argv : List String) (k : Nat) (hk : k < argv.length) :
    ∀ (n i : Nat) (d c : Option String) (s s' : St), argv.length - i = n → k ≤ i →
      (parseLoop (argv.eraseIdx k) i d c s).outcome = (parseLoop argv (i + 1) d c s').outcome := by
  have hlen : (argv.eraseIdx k).length = argv.length - 1 := by
    rw [List.length_eraseIdx]; simp [hk]
  intro n
  induction n using Nat.strong_induction_on with
  | _ n ih =>
    intro i d c s s' hn hki
    rw [parseLoop, parseLoop.eq_1 argv (i + 1) d c s']
    by_cases h : i + 1 < argv.length
    · have h' : i < (argv.eraseIdx k).length := by omega
      have hget : (argv.eraseIdx k)[i] = argv[i + 1] := by
        rw [List.getElem_eraseIdx]
        simp [show ¬ i < k by omega]
      have hget2 : (argv.eraseIdx k)[i + 1]? = argv[i + 1 + 1]? := by
        rw [List.getElem?_eraseIdx]
        simp [show ¬ i + 1 < k by omega]
      simp only [h, h', dite_true, hget, hget2]
      split_ifs
      · exact ih (argv.length - (i + 2)) (by omega) (i + 2) _ _ s s' rfl (by omega)
      · exact ih (argv.length - (i + 2)) (by omega) (i + 2) _ _ s s' rfl (by omega)
      · exact ih (argv.length - (i + 1)) (by omega) (i + 1) _ _ _ _ rfl (by omega)
      · rfl
    · have h' : ¬ i < (argv.eraseIdx k).length := by omega
      simp only [h, h', dite_false]
      rfl

/-- One step of the loop at a flag whose letter is neither `d` nor `c`. -/
theorem parseLoop_unknown_flag (argv : List String) (k : Nat) (a : String)
    (ha : argv[k]? = some a) (hflag : isFlagArg a)
    (hd : tolower (charAt a 1) ≠ 'd') (hc : tolower (charAt a 1) ≠ 'c')
    (d c : Option String) (s : St) :
    parseLoop argv k d c s = parseLoop argv (k + 1) d c (usage argv.head? s) := by
  obtain ⟨hk, hget⟩ := List.getElem?_eq_some_iff.mp ha
  rw [parseLoop]
  have hflag' : charAt a 0 = '-' ∨ charAt a 0 = '/' := hflag
  simp only [hk, dite_true, hget, hflag', if_true, hd, hc, if_false]

/-- Erasing a scanned flag whose letter is neither `d` nor `c` does not change
the outcome of the loop. -/
theorem parseLoop_eraseIdx (argv : List String) (k : Nat) (a : String)
    (ha : argv[k]? = some a) (hflag : isFlagArg a)
    (hd : tolower (charAt a 1) ≠ 'd') (hc : tolower (charAt a 1) ≠ 'c') :
    ∀ (n i : Nat) (d c : Option String) (s s' : St), argv.length - i = n →
      k ∈ scannedIndices argv i →
      (parseLoop argv i d c s).outcome = (parseLoop (argv.eraseIdx k) i d c s').outcome := by
  obtain ⟨hk, hget⟩ := List.getElem?_eq_some_iff.mp ha
  have hlen : (argv.eraseIdx k).length = argv.length - 1 := by
    rw [List.length_eraseIdx]; simp [hk]
  intro n
  induction n using Nat.strong_induction_on with
  | _ n ih =>
    intro i d c s s' hn hmem
    by_cases hik : i = k
    · subst hik
      rw [parseLoop_unknown_flag argv i a ha hflag hd hc]
      exact (parseLoop_eraseIdx_after argv i hk _ i d c s' _ rfl (le_refl _)).symm
    · have hb := scannedIndices_bounds argv k _ i rfl hmem
      have hi : i < argv.length := by omega
      have hi' : i < (argv.eraseIdx k).length := by omega
      have hget1 : (argv.eraseIdx k)[i] = argv[i] := by
        rw [List.getElem_eraseIdx]
        simp [show i < k by omega]
      rw [scannedIndices] at hmem
      simp only [hi, dite_true] at hmem
      rw [parseLoop, parseLoop.eq_1 (argv.eraseIdx k) i d c s']
      simp only [hi, hi', dite_true, hget1]
      by_cases hf : charAt argv[i] 0 = '-' ∨ charAt argv[i] 0 = '/'
      · simp only [hf, if_true] at hmem ⊢
        by_cases hdc : tolower (charAt argv[i] 1) = 'd' ∨ tolower (charAt argv[i] 1) = 'c'
        · simp only [hdc, if_true] at hmem
          have hmem2 : k ∈ scannedIndices argv (i + 2) := by
            rcases List.mem_cons.mp hmem with h1 | h1
            · exact absurd h1.symm hik
            · exact h1
          have hb2 := scannedIndices_bounds argv k _ (i + 2) rfl hmem2
          have hget2 : (argv.eraseIdx k)[i + 1]? = argv[i + 1]? := by
            rw [List.getElem?_eraseIdx]
            simp [show i + 1 < k by omega]
          rw [hget2]
          split_ifs
          · exact ih (argv.length - (i + 2)) (by omega) (i + 2) _ _ s s' rfl hmem2
          · exact ih (argv.length - (i + 2)) (by omega) (i + 2) _ _ s s' rfl hmem2
          · rename_i h1 h2
            exact absurd hdc (by simp [h1, h2])
        · simp only [hdc, if_false] at hmem
          have hmem2 : k ∈ scannedIndices argv (i + 1) := by
            rcases List.mem_cons.mp hmem with h1 | h1
            · exact absurd h1.symm hik
            · exact h1
          have hnd : ¬ tolower (charAt argv[i] 1) = 'd' := fun h => hdc (Or.inl h)
          have hnc : ¬ tolower (charAt argv[i] 1) = 'c' := fun h => hdc (Or.inr h)
          simp only [hnd, hnc, if_false]
          exact ih (argv.length - (i + 1)) (by omega) (i + 1) _ _ _ _ rfl hmem2
      · simp only [hf, if_false] at hmem
        simp at hmem
        exact absurd hmem.symm hik

/-! ## The standard command line -/

/-- The scan of `-d device -c command`. -/
theorem parseLoop_standard (prog device command : String) :
    parseLoop [prog, "-d", device, "-c", command] 1 none none St.init
      = Scan.done (some device) (some command) St.init := by
  simp +decide [parseLoop]

/-- On `-d device -c command`, `main` is lines 208-265 run on that device and
command. -/
theorem main_standard (w : World) (prog device command : String) :
    main w [prog, "-d", device, "-c", command]
      = relayControl w (some prog) device command
          ⟨[Event.stdout "USB Relay Module Controller - USBPOWRL002\n"], 0, 0⟩ := by
  simp only [main, main_scan, parseLoop_standard]
  simp [emit, St.init]

/-- A session whose `open` succeeds and whose `write` does not return zero. -/
theorem sessionRet_ok (w : World) (P d : String) (o n : Nat)
    (h1 : 0 ≤ w.openRet o d) (h2 : w.writeRet n (w.openRet o d) P ≠ 0) :
    sessionRet w P d o n = 1 ∧ sessionEvents w P d o n = session w d o n P := by
  simp [sessionRet, sessionEvents, not_lt.mpr h1, h2]

theorem wire_append (a b : List Event) : wire (a ++ b) = wire a ++ wire b := by
  simp [wire]

theorem wire_session (w : World) (d : String) (o n : Nat) (P : String) :
    wire (session w d o n P) = [Wire.bytes P] := by
  simp [wire, session, wireOf]

theorem deviceEvents_session (w : World) (d : String) (o n : Nat) (P : String) :
    deviceEvents (session w d o n P) = session w d o n P := rfl

theorem wire_stdout (x : String) (t : List Event) : wire (Event.stdout x :: t) = wire t := rfl
theorem wire_usleep (x : Nat) (t : List Event) :
    wire (Event.usleep x :: t) = Wire.usleep x :: wire t := rfl
theorem wire_sleep (x : Nat) (t : List Event) :
    wire (Event.sleep x :: t) = Wire.sleep x :: wire t := rfl

/-- Claim C1: for every device path and every command among "on", "off" and
"pulse", when every `open` on the device succeeds and every `write` (of one
of the three payloads the program has) returns a positive count, `main` run with `-d device -c command` returns 0, and what is
written and slept is exactly: the wake byte, `usleep (50)`, then "relay on 0"
for "on", "relay off 0" for "off", and for "pulse" "relay on 0", `sleep (1)`,
"relay off 0", each payload in a session of its own (open, write, close). -/
theorem main_valid_command (w : World) (prog device command : String)
    (hcmd : command = "on" ∨ command = "off" ∨ command = "pulse")
    (hopen : ∀ k, 0 ≤ w.openRet k device)
    (hwrite : ∀ k fd, ∀ buf ∈ ["\r", "relay on 0\r", "relay off 0\r"],
      0 < w.writeRet k fd buf) :
    (main w [prog, "-d", device, "-c", command]).1 = 0 ∧
    (command = "on" →
      wire (main w [prog, "-d", device, "-c", command]).2.trace
        = [Wire.bytes "\r", Wire.usleep 50, Wire.bytes "relay on 0\r"] ∧
      deviceEvents (main w [prog, "-d", device, "-c", command]).2.trace
        = session w device 0 0 "\r" ++ Event.usleep 50 :: session w device 1 1 "relay on 0\r") ∧
    (command = "off" →
      wire (main w [prog, "-d", device, "-c", command]).2.trace
        = [Wire.bytes "\r", Wire.usleep 50, Wire.bytes "relay off 0\r"] ∧
      deviceEvents (main w [prog, "-d", device, "-c", command]).2.trace
        = session w device 0 0 "\r" ++ Event.usleep 50 :: session w device 1 1 "relay off 0\r") ∧
    (command = "pulse" →
      wire (main w [prog, "-d", device, "-c", command]).2.trace
        = [Wire.bytes "\r", Wire.usleep 50, Wire.bytes "relay on 0\r", Wire.sleep 1,
           Wire.bytes "relay off 0\r"] ∧
      deviceEvents (main w [prog, "-d", device, "-c", command]).2.trace
        = session w device 0 0 "\r" ++ Event.usleep 50 :: session w device 1 1 "relay on 0\r"
            ++ Event.sleep 1 :: session w device 2 2 "relay off 0\r") := by
  have hs : ∀ P ∈ ["\r", "relay on 0\r", "relay off 0\r"], ∀ (o n : Nat),
      sessionRet w P device o n = 1 ∧
      sessionEvents w P device o n = session w device o n P :=
    fun P hP o n => sessionRet_ok w P device o n (hopen o) (ne_of_gt (hwrite _ _ P hP))
  have hs1 := hs wakeUp (by simp [wakeUp])
  have hs2 := hs openIt (by simp [openIt])
  have hs3 := hs closeIt (by simp [closeIt])
  obtain ⟨e1, e2⟩ := relayControl_eq w (some prog) device command
    [Event.stdout "USB Relay Module Controller - USBPOWRL002\n"] 0 0
  rw [main_standard, e1, e2]
  have hoff : ¬ ("off" = "on") := by decide
  have hp1 : ¬ ("pulse" = "on") := by decide
  have hp2 : ¬ ("pulse" = "off") := by decide
  rcases hcmd with h | h | h <;> subst h <;>
    simp only [relayEvents, hs1, hs2, hs3, hoff, hp1, hp2] <;>
    simp [wire_append, wire_session, wire_stdout, wire_usleep,
      wire_sleep, deviceEvents_append, deviceEvents_session, deviceEvents_stdout,
      deviceEvents_usleep, deviceEvents_sleep, wakeUp, openIt, closeIt]


/-- The run of `main` on a command that is none of the three literals. -/
theorem main_invalid (w : World) (prog device command : String)
    (h1 : command ≠ "on") (h2 : command ≠ "off") (h3 : command ≠ "pulse") :
    (main w [prog, "-d", device, "-c", command]).1 = 1 ∧
    deviceEvents (main w [prog, "-d", device, "-c", command]).2.trace =
      (if w.openRet 0 device < 0 then [Event.sysOpen device (w.openRet 0 device)]
       else if w.writeRet 0 (w.openRet 0 device) "\r" = 0 then session w device 0 0 "\r"
       else session w device 0 0 "\r" ++ [Event.usleep 50]) ∧
    (main w [prog, "-d", device, "-c", command]).2.opens = 1 ∧
    (main w [prog, "-d", device, "-c", command]).2.writes ≤ 1 ∧
    (∀ fd buf r, Event.sysWrite fd buf r ∈ (main w [prog, "-d", device, "-c", command]).2.trace →
      buf = "\r") := by
  rw [main_standard]
  simp only [relayControl, emit, wakeup_eq, h1, h2, h3, if_false]
  rw [usage_eq]
  have hu : ∀ fd buf r, Event.sysWrite fd buf r ∉ (usage (some prog) St.init).trace := by
    simp [usage, emit, St.init]
  by_cases h0 : w.openRet 0 device < 0
  · simp [sessionRet, sessionEvents, sessionWrites, h0, deviceEvents_append,
      deviceEvents_stdout, deviceEvents_sysOpen, deviceEvents_nil]
  · by_cases hz : w.writeRet 0 (w.openRet 0 device) "\r" = 0
    · simp +contextual [sessionRet, sessionEvents, sessionWrites, session, wakeUp, h0, hz,
        deviceEvents_append, deviceEvents_stdout, deviceEvents_sysOpen, deviceEvents_sysWrite,
        deviceEvents_sysClose, deviceEvents_nil]
    · simp +contextual [sessionRet, sessionEvents, sessionWrites, session, wakeUp, h0, hz,
        deviceEvents_append, deviceEvents_stdout, deviceEvents_sysOpen, deviceEvents_sysWrite,
        deviceEvents_sysClose, deviceEvents_usleep, deviceEvents_nil, usage_output, hu]

/-- Claim C2: for every device path and every command string other than "on",
"off" and "pulse", `main` run with `-d device -c command` returns 1; the only
device session is the wake session (one `open`, at most one `write`, of the
wake byte, and its `close`), and every payload written is the wake byte, so
neither relay command is ever written. -/
theorem main_invalid_command (w : World) (prog device command : String)
    (h1 : command ≠ "on") (h2 : command ≠ "off") (h3 : command ≠ "pulse") :
    (main w [prog, "-d", device, "-c", command]).1 = 1 ∧
    deviceEvents (main w [prog, "-d", device, "-c", command]).2.trace =
      (if w.openRet 0 device < 0 then [Event.sysOpen device (w.openRet 0 device)]
       else if w.writeRet 0 (w.openRet 0 device) "\r" = 0 then session w device 0 0 "\r"
       else session w device 0 0 "\r" ++ [Event.usleep 50]) ∧
    (main w [prog, "-d", device, "-c", command]).2.opens = 1 ∧
    (main w [prog, "-d", device, "-c", command]).2.writes ≤ 1 ∧
    (∀ fd buf r, Event.sysWrite fd buf r ∈ (main w [prog, "-d", device, "-c", command]).2.trace →
      buf = "\r") :=
  main_invalid w prog device command h1 h2 h3

/-- Claim C3: for every command string and every device path whose `open`
fails, `main` run with `-d device -c command` returns 1 after exactly one
`open` attempt and no `write`: `wakeup` returns 0, nothing is written, and the
failed `open` is the only device event, so neither `activate` nor `deactivate`
ran. -/
theorem main_open_failure (w : World) (prog device command : String)
    (h : w.openRet 0 device < 0) :
    (main w [prog, "-d", device, "-c", command]).1 = 1 ∧
    deviceEvents (main w [prog, "-d", device, "-c", command]).2.trace
      = [Event.sysOpen device (w.openRet 0 device)] ∧
    (main w [prog, "-d", device, "-c", command]).2.opens = 1 ∧
    (main w [prog, "-d", device, "-c", command]).2.writes = 0 ∧
    wire (main w [prog, "-d", device, "-c", command]).2.trace = [] ∧
    (∀ s : St, s.opens = 0 → (wakeup w device s).1 = 0) := by
  rw [main_standard]
  simp only [relayControl, emit, wakeup_eq, sessionRet, sessionEvents, sessionWrites, h, if_true]
  refine ⟨trivial, rfl, trivial, trivial, rfl, ?_⟩
  intro s hs
  obtain ⟨t, o, n⟩ := s
  simp only at hs
  subst hs
  simp [wakeup_eq, sessionRet, h]

/-- Claim C10: only a `write` result of exactly zero counts as a failure.  For
each of `wakeup`, `activate` and `deactivate`, if the `open` succeeds and the
`write` returns any value other than zero (such as -1 or a short count) the
function returns 1; so for each of "on", "off" and "pulse", `main` returns 0
on a device whose opens succeed and whose every `write` returns -1. -/
theorem only_zero_write_detected (w : World) :
    (∀ (device : String) (s : St), 0 ≤ w.openRet s.opens device →
      w.writeRet s.writes (w.openRet s.opens device) "\r" ≠ 0 →
      (wakeup w device s).1 = 1) ∧
    (∀ (device : String) (s : St), 0 ≤ w.openRet s.opens device →
      w.writeRet s.writes (w.openRet s.opens device) "relay on 0\r" ≠ 0 →
      (activate w device s).1 = 1) ∧
    (∀ (device : String) (s : St), 0 ≤ w.openRet s.opens device →
      w.writeRet s.writes (w.openRet s.opens device) "relay off 0\r" ≠ 0 →
      (deactivate w device s).1 = 1) ∧
    (∀ (prog device command : String),
      command = "on" ∨ command = "off" ∨ command = "pulse" →
      (∀ k, 0 ≤ w.openRet k device) → (∀ k fd buf, w.writeRet k fd buf = -1) →
      (main w [prog, "-d", device, "-c", command]).1 = 0) := by
  refine ⟨?_, ?_, ?_, ?_⟩
  · rintro device ⟨t, o, n⟩ ho hw
    rw [wakeup_eq]
    exact (sessionRet_ok w wakeUp device o n ho hw).1
  · rintro device ⟨t, o, n⟩ ho hw
    rw [activate_eq]
    exact (sessionRet_ok w openIt device o n ho hw).1
  · rintro device ⟨t, o, n⟩ ho hw
    rw [deactivate_eq]
    exact (sessionRet_ok w closeIt device o n ho hw).1
  · intro prog device command hcmd hopen hwrite
    have hs : ∀ (P : String) (o n : Nat), sessionRet w P device o n = 1 :=
      fun P o n => (sessionRet_ok w P device o n (hopen o) (by rw [hwrite]; decide)).1
    rw [main_standard, (relayControl_eq w (some prog) device command _ 0 0).1]
    have hoff : ¬ ("off" = "on") := by decide
    have hp1 : ¬ ("pulse" = "on") := by decide
    have hp2 : ¬ ("pulse" = "off") := by decide
    rcases hcmd with h | h | h <;> subst h <;> simp [relayEvents, hs, hoff, hp1, hp2]

/-- A positional argument that is scanned ends the loop with `exit (1)`. -/
theorem parseLoop_positional (argv : List String) (k : Nat) (a : String)
    (ha : argv[k]? = some a) (hpos : ¬ isFlagArg a) :
    ∀ (n i : Nat) (d c : Option String) (s : St), argv.length - i = n →
      k ∈ scannedIndices argv i → (parseLoop argv i d c s).outcome = Sum.inl 1 := by
  obtain ⟨hk, hget⟩ := List.getElem?_eq_some_iff.mp ha
  intro n
  induction n using Nat.strong_induction_on with
  | _ n ih =>
    intro i d c s hn hmem
    have hb := scannedIndices_bounds argv k _ i rfl hmem
    have hi : i < argv.length := by omega
    rw [scannedIndices] at hmem
    simp only [hi, dite_true] at hmem
    rw [parseLoop]
    simp only [hi, dite_true]
    by_cases hf : charAt argv[i] 0 = '-' ∨ charAt argv[i] 0 = '/'
    · have hik : k ≠ i := by
        intro h
        subst h
        rw [hget] at hf
        exact hpos hf
      simp only [hf, if_true] at hmem ⊢
      split_ifs at hmem with hdc
      · have hmem2 : k ∈ scannedIndices argv (i + 2) := by
          rcases List.mem_cons.mp hmem with h1 | h1
          · exact absurd h1 hik
          · exact h1
        split_ifs
        · exact ih (argv.length - (i + 2)) (by omega) (i + 2) _ _ s rfl hmem2
        · exact ih (argv.length - (i + 2)) (by omega) (i + 2) _ _ s rfl hmem2
        · rename_i h1 h2
          exact absurd hdc (by simp [h1, h2])
      · have hmem2 : k ∈ scannedIndices argv (i + 1) := by
          rcases List.mem_cons.mp hmem with h1 | h1
          · exact absurd h1 hik
          · exact h1
        have hnd : ¬ tolower (charAt argv[i] 1) = 'd' := fun h => hdc (Or.inl h)
        have hnc : ¬ tolower (charAt argv[i] 1) = 'c' := fun h => hdc (Or.inr h)
        simp only [hnd, hnc, if_false]
        exact ih (argv.length - (i + 1)) (by omega) (i + 1) _ _ _ rfl hmem2
    · simp only [hf, if_false]
      rfl

/-- The loop leaves through `exit` only at a positional argument that it
scans. -/
theorem parseLoop_exited (argv : List String) (code : Int) :
    ∀ (n i : Nat) (d c : Option String) (s : St), argv.length - i = n →
      (parseLoop argv i d c s).outcome = Sum.inl code →
      ∃ k a, k ∈ scannedIndices argv i ∧ argv[k]? = some a ∧ ¬ isFlagArg a := by
  intro n
  induction n using Nat.strong_induction_on with
  | _ n ih =>
    intro i d c s hn hout
    rw [parseLoop] at hout
    rw [scannedIndices]
    by_cases hi : i < argv.length
    · simp only [hi, dite_true] at hout ⊢
      by_cases hf : charAt argv[i] 0 = '-' ∨ charAt argv[i] 0 = '/'
      · simp only [hf, if_true] at hout ⊢
        by_cases hd : tolower (charAt argv[i] 1) = 'd'
        · simp only [hd, if_true, true_or] at hout ⊢
          obtain ⟨k, a, hk, ha, hp⟩ :=
            ih (argv.length - (i + 2)) (by omega) (i + 2) _ _ s rfl hout
          exact ⟨k, a, List.mem_cons_of_mem _ hk, ha, hp⟩
        · by_cases hc : tolower (charAt argv[i] 1) = 'c'
          · simp only [hd, hc, if_false, if_true, or_true] at hout ⊢
            obtain ⟨k, a, hk, ha, hp⟩ :=
              ih (argv.length - (i + 2)) (by omega) (i + 2) _ _ s rfl hout
            exact ⟨k, a, List.mem_cons_of_mem _ hk, ha, hp⟩
          · simp only [hd, hc, if_false, or_self] at hout ⊢
            obtain ⟨k, a, hk, ha, hp⟩ :=
              ih (argv.length - (i + 1)) (by omega) (i + 1) _ _ _ rfl hout
            exact ⟨k, a, List.mem_cons_of_mem _ hk, ha, hp⟩
      · simp only [hf, if_false]
        exact ⟨i, argv[i], List.mem_singleton.mpr rfl, List.getElem?_eq_getElem hi, hf⟩
    · simp only [hi, dite_false] at hout
      exact absurd hout (by simp [Scan.outcome])

/-- The scan ends in `exit` exactly when it reaches a positional argument, and
otherwise runs to the end of the argument list. -/
theorem scan_exits_iff (argv : List String) :
    (parseLoop argv 1 none none St.init).outcome = Sum.inl 1 ↔ positionalReached argv := by
  constructor
  · intro h
    exact parseLoop_exited argv 1 _ 1 none none St.init rfl h
  · rintro ⟨k, a, hk, ha, hp⟩
    exact parseLoop_positional argv k a ha hp _ 1 none none St.init rfl hk

/-- A `d` or `c` flag scanned as the last argument leaves its pointer null. -/
theorem parseLoop_last_flag (argv : List String) (k : Nat) (a : String)
    (hlast : k + 1 = argv.length) (ha : argv[k]? = some a) (hflag : isFlagArg a)
    (hdc : tolower (charAt a 1) = 'd' ∨ tolower (charAt a 1) = 'c') :
    ∀ (n i : Nat) (d c : Option String) (s : St), argv.length - i = n →
      k ∈ scannedIndices argv i →
      ∃ d' c', (parseLoop argv i d c s).outcome = Sum.inr (d', c') ∧
        (tolower (charAt a 1) = 'd' → d' = none) ∧
        (tolower (charAt a 1) ≠ 'd' → c' = none) := by
  obtain ⟨hk, hget⟩ := List.getElem?_eq_some_iff.mp ha
  have hflag' : charAt a 0 = '-' ∨ charAt a 0 = '/' := hflag
  intro n
  induction n using Nat.strong_induction_on with
  | _ n ih =>
    intro i d c s hn hmem
    by_cases hik : i = k
    · subst hik
      have hnone : argv[i + 1]? = none := by
        apply List.getElem?_eq_none
        omega
      have hend : ∀ d c s, parseLoop argv (i + 2) d c s = Scan.done d c s := by
        intro d c s
        rw [parseLoop]
        simp [show ¬ i + 2 < argv.length by omega]
      by_cases hd : tolower (charAt a 1) = 'd'
      · refine ⟨none, c, ?_, fun _ => rfl, fun h => absurd hd h⟩
        rw [parseLoop]
        simp only [hk, dite_true, hget, hflag', if_true, hnone, hend, hd]
        rfl
      · have hc : tolower (charAt a 1) = 'c' := by
          rcases hdc with h | h
          · exact absurd h hd
          · exact h
        refine ⟨d, none, ?_, fun h => absurd h hd, fun _ => rfl⟩
        rw [parseLoop]
        simp only [hk, dite_true, hget, hflag', if_true, hnone, hend, hd, hc, if_false]
        rfl
    · have hb := scannedIndices_bounds argv k _ i rfl hmem
      have hi : i < argv.length := by omega
      rw [scannedIndices] at hmem
      simp only [hi, dite_true] at hmem
      rw [parseLoop]
      simp only [hi, dite_true]
      by_cases hf : charAt argv[i] 0 = '-' ∨ charAt argv[i] 0 = '/'
      · simp only [hf, if_true] at hmem ⊢
        split_ifs at hmem with hdc'
        · have hmem2 : k ∈ scannedIndices argv (i + 2) := by
            rcases List.mem_cons.mp hmem with h1 | h1
            · exact absurd h1.symm hik
            · exact h1
          split_ifs
          · exact ih (argv.length - (i + 2)) (by omega) (i + 2) _ _ s rfl hmem2
          · exact ih (argv.length - (i + 2)) (by omega) (i + 2) _ _ s rfl hmem2
          · rename_i h1 h2
            exact absurd hdc' (by simp [h1, h2])
        · have hmem2 : k ∈ scannedIndices argv (i + 1) := by
            rcases List.mem_cons.mp hmem with h1 | h1
            · exact absurd h1.symm hik
            · exact h1
          have hnd : ¬ tolower (charAt argv[i] 1) = 'd' := fun h => hdc' (Or.inl h)
          have hnc : ¬ tolower (charAt argv[i] 1) = 'c' := fun h => hdc' (Or.inr h)
          simp only [hnd, hnc, if_false]
          exact ih (argv.length - (i + 1)) (by omega) (i + 1) _ _ _ rfl hmem2
      · simp only [hf, if_false] at hmem
        simp at hmem
        exact absurd hmem.symm hik

/-- With a pointer unset the program exits with status 1 before any system call. -/
theorem behaviour_unset (w : World) (d c : Option String) (h : d = none ∨ c = none) :
    behaviour w (Sum.inr (d, c)) = (1, []) := by
  rcases h with h | h
  · subst h; rfl
  · subst h
    cases d <;> rfl

/-- Whatever the loop decided, the device events obey the handle discipline. -/
theorem behaviour_disciplined (w : World) (x : Int ⊕ (Option String × Option String)) :
    disciplined Handle.closed (behaviour w x).2 = true := by
  rcases x with code | ⟨d, c⟩
  · rfl
  · cases d with
    | none => rfl
    | some dv =>
      cases c with
      | none => rfl
      | some cm =>
        simp only [behaviour, St.init]
        rw [disciplined_deviceEvents, (relayControl_eq w none dv cm [] 0 0).2, List.nil_append]
        exact relayEvents_disciplined w none dv cm 0 0

/-- Whatever the loop decided, a zero write ends the run with status 1. -/
theorem behaviour_zeroWrite (w : World) (x : Int ⊕ (Option String × Option String)) :
    zeroWriteOK (behaviour w x).1 (behaviour w x).2 = true := by
  rcases x with code | ⟨d, c⟩
  · rfl
  · cases d with
    | none => rfl
    | some dv =>
      cases c with
      | none => rfl
      | some cm =>
        simp only [behaviour, St.init]
        rw [(relayControl_eq w none dv cm [] 0 0).1, (relayControl_eq w none dv cm [] 0 0).2,
          List.nil_append]
        exact relayEvents_zeroWrite w none dv cm 0 0

theorem main_fst (w : World) (argv : List String) :
    (main w argv).1 = (behaviour w (parseLoop argv 1 none none St.init).outcome).1 :=
  congrArg Prod.fst (main_behaviour w argv)

theorem main_deviceEvents (w : World) (argv : List String) :
    deviceEvents (main w argv).2.trace
      = (behaviour w (parseLoop argv 1 none none St.init).outcome).2 :=
  congrArg Prod.snd (main_behaviour w argv)

/-- Claim C4: for every argument list that is an argument error (the scan
reaches a positional argument, or it ends with the device or the command
unset) `main` ends with exit status 1 and without any device event; this
covers the empty argument list, `-d device` alone and `-c command` alone. -/
theorem main_argument_error (w : World) :
    (∀ argv : List String, positionalReached argv ∨ unsetAfterScan argv →
      (main w argv).1 = 1 ∧ deviceEvents (main w argv).2.trace = []) ∧
    (∀ prog : String,
      (main w [prog]).1 = 1 ∧ deviceEvents (main w [prog]).2.trace = []) ∧
    (∀ prog device : String,
      (main w [prog, "-d", device]).1 = 1 ∧
      deviceEvents (main w [prog, "-d", device]).2.trace = []) ∧
    (∀ prog command : String,
      (main w [prog, "-c", command]).1 = 1 ∧
      deviceEvents (main w [prog, "-c", command]).2.trace = []) := by
  have key : ∀ argv : List String, positionalReached argv ∨ unsetAfterScan argv →
      (main w argv).1 = 1 ∧ deviceEvents (main w argv).2.trace = [] := by
    intro argv h
    rw [main_fst, main_deviceEvents]
    rcases h with ⟨k, a, hk, ha, hpos⟩ | ⟨d, c, s, hscan, hdc⟩
    · rw [parseLoop_positional argv k a ha hpos _ 1 none none St.init rfl hk]
      exact ⟨rfl, rfl⟩
    · rw [hscan]
      simp only [Scan.outcome, behaviour_unset w d c hdc, and_self]
  refine ⟨key, ?_, ?_, ?_⟩
  · intro prog
    exact key _ (Or.inr ⟨none, none, St.init, by simp +decide [parseLoop], Or.inl rfl⟩)
  · intro prog device
    exact key _ (Or.inr ⟨some device, none, St.init, by simp +decide [parseLoop], Or.inr rfl⟩)
  · intro prog command
    exact key _ (Or.inr ⟨none, some command, St.init, by simp +decide [parseLoop], Or.inl rfl⟩)

/-- Claim C6: unknown flags are not fatal.  An argument that is scanned, starts
with `-` or `/`, and whose second character lower-cased is neither `d` nor `c`
makes the loop go on at the next index with `device` and `command` unchanged
(only `usage` is printed); the outcome of the scan, the exit status and the
device events of `main` are those of the argument list with that argument
erased. -/
theorem unknown_flag_ignored (w : World) (argv : List String) (k : Nat) (a : String)
    (hk : k ∈ scannedIndices argv 1) (ha : argv[k]? = some a) (hflag : isFlagArg a)
    (hd : tolower (charAt a 1) ≠ 'd') (hc : tolower (charAt a 1) ≠ 'c') :
    (∀ d c s, parseLoop argv k d c s = parseLoop argv (k + 1) d c (usage argv.head? s)) ∧
    (parseLoop argv 1 none none St.init).outcome
      = (parseLoop (argv.eraseIdx k) 1 none none St.init).outcome ∧
    (main w argv).1 = (main w (argv.eraseIdx k)).1 ∧
    deviceEvents (main w argv).2.trace = deviceEvents (main w (argv.eraseIdx k)).2.trace := by
  have hout := parseLoop_eraseIdx argv k a ha hflag hd hc _ 1 none none St.init St.init rfl hk
  refine ⟨parseLoop_unknown_flag argv k a ha hflag hd hc, hout, ?_, ?_⟩
  · rw [main_fst, main_fst, hout]
  · rw [main_deviceEvents, main_deviceEvents, hout]

/-- Claim C9: when the scan reaches a device flag or a command flag that is
the last argument, the pointer it sets is the null pointer that ends `argv`,
nothing beyond the argument list is used as device path or command, and
`main` ends with exit status 1 and without any device event. -/
theorem missing_flag_value (w : World) (argv : List String) (k : Nat) (a : String)
    (hk : k ∈ scannedIndices argv 1) (hlast : k + 1 = argv.length)
    (ha : argv[k]? = some a) (hflag : isFlagArg a)
    (hdc : tolower (charAt a 1) = 'd' ∨ tolower (charAt a 1) = 'c') :
    (main w argv).1 = 1 ∧ deviceEvents (main w argv).2.trace = [] ∧
    ∃ d c, (parseLoop argv 1 none none St.init).outcome = Sum.inr (d, c) ∧
      (tolower (charAt a 1) = 'd' → d = none) ∧ (tolower (charAt a 1) ≠ 'd' → c = none) := by
  obtain ⟨d, c, hout, h1, h2⟩ :=
    parseLoop_last_flag argv k a hlast ha hflag hdc _ 1 none none St.init rfl hk
  have hdc' : d = none ∨ c = none := by
    by_cases h : tolower (charAt a 1) = 'd'
    · exact Or.inl (h1 h)
    · exact Or.inr (h2 h)
  refine ⟨?_, ?_, d, c, hout, h1, h2⟩
  · rw [main_fst, hout, behaviour_unset w d c hdc']
  · rw [main_deviceEvents, hout, behaviour_unset w d c hdc']

/-- Claim C8: handle discipline, for every argument list and every behaviour
of the device.  In the trace of `main`, and in the events each of `wakeup`,
`activate` and `deactivate` adds, every successful `open` is followed by one
`write` on that handle and then one `close` of it before the next `open` or
the end: one handle at a time, none closed twice, none left open. -/
theorem handle_discipline (w : World) :
    (∀ argv : List String, disciplined Handle.closed (main w argv).2.trace = true) ∧
    (∀ (device : String) (s : St), ∃ evs,
      (wakeup w device s).2.trace = s.trace ++ evs ∧ disciplined Handle.closed evs = true) ∧
    (∀ (device : String) (s : St), ∃ evs,
      (activate w device s).2.trace = s.trace ++ evs ∧ disciplined Handle.closed evs = true) ∧
    (∀ (device : String) (s : St), ∃ evs,
      (deactivate w device s).2.trace = s.trace ++ evs ∧
      disciplined Handle.closed evs = true) := by
  refine ⟨?_, ?_, ?_, ?_⟩
  · intro argv
    rw [← disciplined_deviceEvents, main_deviceEvents]
    exact behaviour_disciplined w _
  · rintro device ⟨t, o, n⟩
    exact ⟨_, by rw [wakeup_eq], sessionEvents_disciplined w wakeUp device o n⟩
  · rintro device ⟨t, o, n⟩
    exact ⟨_, by rw [activate_eq], sessionEvents_disciplined w openIt device o n⟩
  · rintro device ⟨t, o, n⟩
    exact ⟨_, by rw [deactivate_eq], sessionEvents_disciplined w closeIt device o n⟩

/-- A string that differs from its lower-cased form `v` is none of the three
command literals, which are lower case. -/
theorem lowerCase_invalid (command v : String)
    (hne : command ≠ v) (hlow : lowerCase command = v) :
    command ≠ "on" ∧ command ≠ "off" ∧ command ≠ "pulse" := by
  have e1 : lowerCase "on" = "on" := by decide
  have e2 : lowerCase "off" = "off" := by decide
  have e3 : lowerCase "pulse" = "pulse" := by decide
  refine ⟨?_, ?_, ?_⟩ <;> intro h <;> subst h
  · rw [e1] at hlow; exact hne hlow
  · rw [e2] at hlow; exact hne hlow
  · rw [e3] at hlow; exact hne hlow

/-- Claim C5: flag letters are case-insensitive and the two flag characters
are equivalent, but command values are case-sensitive.  `main` gives the same
result (exit status and every event) whichever of `-d`, `-D`, `/d`, `/D`
introduces the device and whichever of `-c`, `-C`, `/c`, `/C` the command; a
command that differs from "on", "off" or "pulse" only in letter case gives exit
status 1 and no payload other than the wake byte is written. -/
theorem flag_letters_case_insensitive (w : World) (prog device command : String) :
    (∀ df ∈ ["-d", "-D", "/d", "/D"], ∀ cf ∈ ["-c", "-C", "/c", "/C"],
      main w [prog, df, device, cf, command] = main w [prog, "-d", device, "-c", command]) ∧
    (∀ v ∈ ["on", "off", "pulse"], command ≠ v → lowerCase command = v →
      (main w [prog, "-d", device, "-c", command]).1 = 1 ∧
      ∀ fd buf r,
        Event.sysWrite fd buf r ∈ (main w [prog, "-d", device, "-c", command]).2.trace →
        buf = "\r") := by
  constructor
  · intro df hdf cf hcf
    have hp : parseLoop [prog, df, device, cf, command] 1 none none St.init
        = Scan.done (some device) (some command) St.init := by
      simp only [List.mem_cons, List.mem_singleton, List.not_mem_nil, or_false] at hdf hcf
      rcases hdf with h | h | h | h <;> rcases hcf with h' | h' | h' | h' <;> subst h <;>
        subst h' <;> simp +decide [parseLoop]
    simp only [main, main_scan, hp, parseLoop_standard]
    rfl
  · intro v hv hne hlow
    obtain ⟨h1, h2, h3⟩ := lowerCase_invalid command v hne hlow
    have h := main_invalid w prog device command h1 h2 h3
    exact ⟨h.1, h.2.2.2.2⟩

/-- A zero-byte wake write: status 1, and the wake byte is the only payload. -/
theorem main_wake_zero (w : World) (prog device command : String)
    (ho : 0 ≤ w.openRet 0 device) (hz : w.writeRet 0 (w.openRet 0 device) "\r" = 0) :
    (main w [prog, "-d", device, "-c", command]).1 = 1 ∧
    wire (main w [prog, "-d", device, "-c", command]).2.trace = [Wire.bytes "\r"] := by
  obtain ⟨e1, e2⟩ := relayControl_eq w (some prog) device command
    [Event.stdout "USB Relay Module Controller - USBPOWRL002\n"] 0 0
  rw [main_standard, e1, e2]
  have hr : sessionRet w wakeUp device 0 0 = 0 := by
    simp [sessionRet, wakeUp, hz]
  have he : sessionEvents w wakeUp device 0 0 = session w device 0 0 "\r" ++
      [Event.stdout "Error: Unable to write to the specified device\n"] := by
    simp [sessionEvents, session, wakeUp, hz, not_lt.mpr ho]
  simp only [relayEvents, hr, he]
  simp [wire_append, wire_session, wire_stdout]
  rfl

/-- A pulse whose write of the activate payload returns zero: status 1, and
the deactivate payload is never handed to `write`. -/
theorem main_pulse_on_zero (w : World) (prog device : String)
    (ho : 0 ≤ w.openRet 0 device) (hz : w.writeRet 0 (w.openRet 0 device) "\r" ≠ 0)
    (ho1 : 0 ≤ w.openRet 1 device)
    (hz1 : w.writeRet 1 (w.openRet 1 device) "relay on 0\r" = 0) :
    (main w [prog, "-d", device, "-c", "pulse"]).1 = 1 ∧
    wire (main w [prog, "-d", device, "-c", "pulse"]).2.trace
      = [Wire.bytes "\r", Wire.usleep 50, Wire.bytes "relay on 0\r"] := by
  obtain ⟨e1, e2⟩ := relayControl_eq w (some prog) device "pulse"
    [Event.stdout "USB Relay Module Controller - USBPOWRL002\n"] 0 0
  rw [main_standard, e1, e2]
  obtain ⟨hr, he⟩ := sessionRet_ok w wakeUp device 0 0 ho hz
  have hr1 : sessionRet w openIt device 1 1 = 0 := by
    simp [sessionRet, openIt, hz1]
  have he1 : sessionEvents w openIt device 1 1 = session w device 1 1 "relay on 0\r" ++
      [Event.stdout "Error: Unable to write to the specified device\n"] := by
    simp [sessionEvents, session, openIt, hz1, not_lt.mpr ho1]
  have hp1 : ¬ ("pulse" = "on") := by decide
  have hp2 : ¬ ("pulse" = "off") := by decide
  simp only [relayEvents, hr, he, hr1, he1, hp1, hp2]
  simp [wire_append, wire_session, wire_stdout, wire_usleep, wakeUp]
  rfl

/-- Claim C7: for each of `wakeup`, `activate` and `deactivate`, when the
`open` succeeds and the `write` returns zero the function closes the handle
and returns 0.  In `main`, a `write` that returned zero is followed by the
`close` of its handle and by no other device event, and the exit status is 1:
a zero-byte wake write sends no relay command, and in a pulse a zero-byte
write of "relay on 0" means "relay off 0" is never sent. -/
theorem zero_byte_write_fails (w : World) :
    (∀ (device : String) (s : St), 0 ≤ w.openRet s.opens device →
      w.writeRet s.writes (w.openRet s.opens device) "\r" = 0 →
      wakeup w device s = (0, ⟨s.trace ++ [Event.sysOpen device (w.openRet s.opens device),
        Event.sysWrite (w.openRet s.opens device) "\r" 0,
        Event.sysClose (w.openRet s.opens device),
        Event.stdout "Error: Unable to write to the specified device\n"],
        s.opens + 1, s.writes + 1⟩)) ∧
    (∀ (device : String) (s : St), 0 ≤ w.openRet s.opens device →
      w.writeRet s.writes (w.openRet s.opens device) "relay on 0\r" = 0 →
      activate w device s = (0, ⟨s.trace ++ [Event.sysOpen device (w.openRet s.opens device),
        Event.sysWrite (w.openRet s.opens device) "relay on 0\r" 0,
        Event.sysClose (w.openRet s.opens device),
        Event.stdout "Error: Unable to write to the specified device\n"],
        s.opens + 1, s.writes + 1⟩)) ∧
    (∀ (device : String) (s : St), 0 ≤ w.openRet s.opens device →
      w.writeRet s.writes (w.openRet s.opens device) "relay off 0\r" = 0 →
      deactivate w device s = (0, ⟨s.trace ++ [Event.sysOpen device (w.openRet s.opens device),
        Event.sysWrite (w.openRet s.opens device) "relay off 0\r" 0,
        Event.sysClose (w.openRet s.opens device),
        Event.stdout "Error: Unable to write to the specified device\n"],
        s.opens + 1, s.writes + 1⟩)) ∧
    (∀ (argv : List String) (pre : List Event) (fd : Int) (buf : String) (post : List Event),
      deviceEvents (main w argv).2.trace = pre ++ Event.sysWrite fd buf 0 :: post →
      (main w argv).1 = 1 ∧ post = [Event.sysClose fd]) ∧
    (∀ prog device command : String, 0 ≤ w.openRet 0 device →
      w.writeRet 0 (w.openRet 0 device) "\r" = 0 →
      (main w [prog, "-d", device, "-c", command]).1 = 1 ∧
      wire (main w [prog, "-d", device, "-c", command]).2.trace = [Wire.bytes "\r"]) ∧
    (∀ prog device : String, 0 ≤ w.openRet 0 device →
      w.writeRet 0 (w.openRet 0 device) "\r" ≠ 0 → 0 ≤ w.openRet 1 device →
      w.writeRet 1 (w.openRet 1 device) "relay on 0\r" = 0 →
      (main w [prog, "-d", device, "-c", "pulse"]).1 = 1 ∧
      wire (main w [prog, "-d", device, "-c", "pulse"]).2.trace
        = [Wire.bytes "\r", Wire.usleep 50, Wire.bytes "relay on 0\r"]) := by
  refine ⟨?_, ?_, ?_, ?_, main_wake_zero w, main_pulse_on_zero w⟩
  · rintro device ⟨t, o, n⟩ ho hz
    simp only at ho hz
    simp [wakeup, c_open, c_write, c_close, emit, wakeUp, not_lt.mpr ho, hz]
  · rintro device ⟨t, o, n⟩ ho hz
    simp only at ho hz
    simp [activate, c_open, c_write, c_close, emit, openIt, not_lt.mpr ho, hz]
  · rintro device ⟨t, o, n⟩ ho hz
    simp only at ho hz
    simp [deactivate, c_open, c_write, c_close, emit, closeIt, not_lt.mpr ho, hz]
  · intro argv pre fd buf post h
    rw [main_fst]
    rw [main_deviceEvents] at h
    exact zeroWriteOK_split _ fd buf post pre _ (behaviour_zeroWrite w _) h

/-! ## Concrete runs -/

/-- The discipline rejects a handle left open. -/
theorem disciplined_rejects_leak :
    disciplined Handle.closed [Event.sysOpen "/dev/ttyACM0" 3,
      Event.sysWrite 3 "\r" 1] = false := by decide

/-- The discipline rejects a second `close` of a handle. -/
theorem disciplined_rejects_double_close :
    disciplined Handle.closed [Event.sysOpen "/dev/ttyACM0" 3,
      Event.sysWrite 3 "\r" 1, Event.sysClose 3, Event.sysClose 3] = false := by decide

/-- The discipline rejects a second `write` on a handle. -/
theorem disciplined_rejects_reuse :
    disciplined Handle.closed [Event.sysOpen "/dev/ttyACM0" 3,
      Event.sysWrite 3 "\r" 1, Event.sysWrite 3 "relay on 0\r" 11, Event.sysClose 3] = false := by
  decide

/-- A pulse on a ready device: exit status 0 and the five wire events in order. -/
theorem main_valid_command_witness :
    (main World.ready ["numato", "-d", "/dev/ttyACM0", "-c", "pulse"]).1 = 0 ∧
    wire (main World.ready ["numato", "-d", "/dev/ttyACM0", "-c", "pulse"]).2.trace
      = [Wire.bytes "\r", Wire.usleep 50, Wire.bytes "relay on 0\r", Wire.sleep 1,
         Wire.bytes "relay off 0\r"] :=
  have h := main_valid_command World.ready "numato" "/dev/ttyACM0" "pulse"
    (Or.inr (Or.inr rfl)) (fun _ => (by decide : (0 : Int) ≤ 3))
    (fun _ _ buf hbuf => by
      simp only [List.mem_cons, List.mem_singleton, List.not_mem_nil, or_false] at hbuf
      rcases hbuf with h | h | h <;> subst h <;> simp only [World.ready] <;> decide)
  ⟨h.1, (h.2.2.2 rfl).1⟩

/-- The command `toggle` on a ready device: exit status 1 after one `open`. -/
theorem main_invalid_command_witness :
    (main World.ready ["numato", "-d", "/dev/ttyACM0", "-c", "toggle"]).1 = 1 ∧
    (main World.ready ["numato", "-d", "/dev/ttyACM0", "-c", "toggle"]).2.opens = 1 :=
  have h := main_invalid_command World.ready "numato" "/dev/ttyACM0" "toggle"
    (by decide) (by decide) (by decide)
  ⟨h.1, h.2.2.1⟩

/-- A device node that is missing: exit status 1 after the one failed `open`. -/
theorem main_open_failure_witness :
    (main World.absent ["numato", "-d", "/dev/missing", "-c", "on"]).1 = 1 ∧
    deviceEvents (main World.absent ["numato", "-d", "/dev/missing", "-c", "on"]).2.trace
      = [Event.sysOpen "/dev/missing" (-1)] :=
  have h := main_open_failure World.absent "numato" "/dev/missing" "on" (by decide)
  ⟨h.1, h.2.1⟩

/-- A command given without its flag: exit status 1 and no device event. -/
theorem main_argument_error_witness :
    (main World.ready ["numato", "-d", "/dev/ttyACM0", "pulse"]).1 = 1 ∧
    deviceEvents (main World.ready ["numato", "-d", "/dev/ttyACM0", "pulse"]).2.trace = [] :=
  (main_argument_error World.ready).1 ["numato", "-d", "/dev/ttyACM0", "pulse"]
    (Or.inl ⟨3, "pulse", by simp +decide [scannedIndices], rfl, by decide⟩)

/-- The flags `/D` and `-C` behave as `-d` and `-c`, and the command `On` is rejected. -/
theorem flag_letters_case_insensitive_witness :
    main World.ready ["numato", "/D", "/dev/ttyACM0", "-C", "On"]
      = main World.ready ["numato", "-d", "/dev/ttyACM0", "-c", "On"] ∧
    (main World.ready ["numato", "-d", "/dev/ttyACM0", "-c", "On"]).1 = 1 :=
  have h := flag_letters_case_insensitive World.ready "numato" "/dev/ttyACM0" "On"
  ⟨h.1 "/D" (by simp) "-C" (by simp), (h.2 "on" (by simp) (by decide) (by decide)).1⟩

/-- The unknown flag `-x` in front of a valid command line changes nothing. -/
theorem unknown_flag_ignored_witness :
    (main World.ready ["numato", "-x", "-d", "/dev/ttyACM0", "-c", "on"]).1
      = (main World.ready ["numato", "-d", "/dev/ttyACM0", "-c", "on"]).1 ∧
    deviceEvents (main World.ready ["numato", "-x", "-d", "/dev/ttyACM0", "-c", "on"]).2.trace
      = deviceEvents (main World.ready ["numato", "-d", "/dev/ttyACM0", "-c", "on"]).2.trace :=
  have h := unknown_flag_ignored World.ready ["numato", "-x", "-d", "/dev/ttyACM0", "-c", "on"]
    1 "-x" (by simp +decide [scannedIndices]) rfl (by decide) (by decide) (by decide)
  ⟨h.2.2.1, h.2.2.2⟩

/-- A pulse on a device that accepts no byte: only the wake byte is attempted. -/
theorem zero_byte_write_fails_witness :
    (main World.stalled ["numato", "-d", "/dev/ttyACM0", "-c", "pulse"]).1 = 1 ∧
    wire (main World.stalled ["numato", "-d", "/dev/ttyACM0", "-c", "pulse"]).2.trace
      = [Wire.bytes "\r"] :=
  (zero_byte_write_fails World.stalled).2.2.2.2.1 "numato" "/dev/ttyACM0" "pulse"
    (by decide) rfl

/-- The trace of a pulse on a ready device obeys the handle discipline. -/
theorem handle_discipline_witness :
    disciplined Handle.closed
      (main World.ready ["numato", "-d", "/dev/ttyACM0", "-c", "pulse"]).2.trace = true :=
  (handle_discipline World.ready).1 ["numato", "-d", "/dev/ttyACM0", "-c", "pulse"]

/-- The command line `-d /dev/ttyACM0 -c`: exit status 1 and no device event. -/
theorem missing_flag_value_witness :
    (main World.ready ["numato", "-d", "/dev/ttyACM0", "-c"]).1 = 1 ∧
    deviceEvents (main World.ready ["numato", "-d", "/dev/ttyACM0", "-c"]).2.trace = [] :=
  have h := missing_flag_value World.ready ["numato", "-d", "/dev/ttyACM0", "-c"] 3 "-c"
    (by simp +decide [scannedIndices]) rfl rfl (by decide) (by decide)
  ⟨h.1, h.2.1⟩

/-- A pulse on a device whose writes all return -1 still ends with exit status 0. -/
theorem only_zero_write_detected_witness :
    (main World.broken ["numato", "-d", "/dev/ttyACM0", "-c", "pulse"]).1 = 0 :=
  (only_zero_write_detected World.broken).2.2.2 "numato" "/dev/ttyACM0" "pulse"
    (Or.inr (Or.inr rfl)) (fun _ => (by decide : (0 : Int) ≤ 3)) (fun _ _ _ => rfl)

end Numato
